import Mathlib

/-!
Verification development for the qrm-logger spectrum monitoring station.

The Python source is shallowly embedded: pure data transformations become Lean
functions over exact arithmetic (`ℚ` for the frequency/bookkeeping arithmetic
that Python performs on floats and ints, `ℝ` for the transcendental signal
path), stateful code becomes explicit state passing, and fallible code returns
`Option`/`Except`.  File I/O and byte-level compression are modelled at the
level of parsed content: the zlib stage of the raw codec is an external
lossless library and is abstracted to the identity on the serialized payload,
and CSV files are modelled as their parsed header/row structure.
-/

/-- Python's built-in `round` (banker's rounding, round-half-to-even),
applied to exact rationals standing in for the source's floats. -/
def pyRound (q : ℚ) : ℤ :=
  if q - ⌊q⌋ < 1 / 2 then ⌊q⌋
  else if 1 / 2 < q - ⌊q⌋ then ⌊q⌋ + 1
  else if ⌊q⌋ % 2 = 0 then ⌊q⌋ else ⌊q⌋ + 1

/-- Python's `int(...)` applied to a float: truncation toward zero. -/
def pyInt (q : ℚ) : ℤ := if 0 ≤ q then ⌊q⌋ else ⌈q⌉

/-! ## Raw FFT codec (`data/fft_data.py`: `write_raw`, `load_raw_fft_data`)

The on-disk format is `zlib(npy(matrix))`.  The NPY payload is modelled as its
parsed content: a shape header `(rows, cols)` plus the row-major int32 data.
The zlib stage (an external lossless codec) is abstracted away, i.e. the model
works directly on the decompressed payload. -/

/-- NPY payload: self-describing shape header plus row-major data, as produced
by `np.save` for a 2-D int32 array. -/
structure NpyFile where
  rows : Nat
  cols : Nat
  data : List ℤ

/-- Cast to int32 (`np.asarray(data, dtype=np.int32)` wraps modulo 2^32). -/
def toInt32 (x : ℤ) : ℤ := (x + 2 ^ 31) % 2 ^ 32 - 2 ^ 31

/-- Model of `write_raw`: serialize a 2-D matrix with its shape header and
row-major int32 data (`np.save` after the int32 cast). -/
def write_raw (m : List (List ℤ)) : NpyFile :=
  { rows := m.length
    cols := (m.headD []).length
    data := (m.map (fun r => r.map toInt32)).flatten }

/-- Rebuild a `rows × cols` matrix from row-major data, as `np.load` does from
the NPY shape header. -/
def unflatten : Nat → Nat → List ℤ → List (List ℤ)
  | 0, _, _ => []
  | r + 1, c, l => l.take c :: unflatten r c (l.drop c)

/-- Model of `load_raw_fft_data`: reconstruct the array from the serialized
header and data.  The `expected_fft_size` parameter is accepted and ignored,
exactly as in the source (its body never mentions `fft_size`). -/
def load_raw_fft_data (f : NpyFile) (expected_fft_size : Option Nat) : List (List ℤ) :=
  unflatten f.rows f.cols f.data

/-! ## Batch counter (`utils/counter.py`, `execution/pipeline.py`,
`execution/data_exporter.py`) -/

/-- Model of `inc_counter`: the persistent counter value is incremented by one. -/
def inc_counter (c : ℤ) : ℤ := c + 1

/-- Model of `_get_db_configurations`: one `(min_db, max_db, name)` entry in
normal mode, seven offset entries in calibration mode. -/
def db_configurations (base_min base_max : ℚ) (is_calibration : Bool) :
    List (ℚ × ℚ × String) :=
  if is_calibration then
    [(base_min, base_max, "+0 dB"),
     (base_min - 12, base_max - 12, "-12 dB"),
     (base_min - 6, base_max - 6, "-6 dB"),
     (base_min - 3, base_max - 3, "-3 dB"),
     (base_min + 3, base_max + 3, "+3 dB"),
     (base_min + 6, base_max + 6, "+6 dB"),
     (base_min + 12, base_max + 12, "+12 dB")]
  else [(base_min, base_max, "")]

/-- Counter effect of the tail of `Pipeline.process_sets`: in calibration mode
`inc_counter` runs once for each `c in range(1, len(db_configs))`, i.e.
`len(db_configs) - 1` times. -/
def process_sets_counter_adjust (c : ℤ) (is_calibration : Bool) (base_min base_max : ℚ) : ℤ :=
  if is_calibration then
    c + ((db_configurations base_min base_max is_calibration).length - 1 : ℕ)
  else c

/-- Counter effect of `Pipeline.execute_capture`: one increment at the start
(the incremented value is stamped into `capture_params.counter`), then the
calibration adjustment after the sets are processed.  Returns
`(stamped counter, counter state after the batch)`. -/
def execute_capture_counter (c : ℤ) (is_calibration : Bool) (base_min base_max : ℚ) : ℤ × ℤ :=
  let stamped := inc_counter c
  (stamped, process_sets_counter_adjust stamped is_calibration base_min base_max)

/-! ## Display-width decimation (`imaging/image_generator.py`:
`decimate_for_plot`; `data/fft_data.py`: `decimate_data`) -/

/-- The allowed decimation factors of `decimate_for_plot`. -/
def allowed_decimation_factors : List ℕ := [1, 2, 3, 4, 6, 8, 12, 16]

/-- Factor selection of `decimate_for_plot`: no decimation when the column
count is at most the target or below 200; otherwise the first allowed factor
at least `ceil(raw_cols / target_cols)`, defaulting to the last allowed factor. -/
def choose_decimation_factor (raw_cols fig_width_px : ℕ) : ℕ :=
  let target_cols := max 1 fig_width_px
  if raw_cols ≤ target_cols ∨ raw_cols < 200 then 1
  else
    let factor_est := (raw_cols + target_cols - 1) / target_cols
    ((allowed_decimation_factors.find? (fun f => factor_est ≤ f)).getD
      (allowed_decimation_factors.getLastD 1))

/-- Decimation combiner methods of `decimate_data`. -/
inductive DecimationMethod
  | mean
  | sample
  | maxMethod
  deriving DecidableEq

/-- Mean of a list of reals (`np.mean`). -/
noncomputable def npMean (l : List ℝ) : ℝ := l.sum / l.length

/-- Maximum of a block (`np.max` over a nonempty decimation block). -/
noncomputable def npBlockMax : List ℝ → ℝ
  | [] => 0
  | x :: xs => xs.foldl max x

/-- Decimate one row of the waterfall along the frequency axis: `sample`
strides (`row[::factor]`), the block methods truncate to whole blocks of
`factor` bins and combine each block by mean or max. -/
noncomputable def decimate_row (row : List ℝ) (factor : ℕ) (method : DecimationMethod) :
    List ℝ :=
  match method with
  | .sample => (List.range ((row.length + factor - 1) / factor)).map
      (fun i => row.getD (i * factor) 0)
  | .maxMethod => (List.range (row.length / factor)).map
      (fun b => npBlockMax ((row.drop (b * factor)).take factor))
  | .mean => (List.range (row.length / factor)).map
      (fun b => npMean ((row.drop (b * factor)).take factor))

/-- Model of `decimate_data`: identity for factors at most 1, otherwise
per-row decimation along the frequency axis. -/
noncomputable def decimate_data (w : List (List ℝ)) (factor : ℕ) (method : DecimationMethod) :
    List (List ℝ) :=
  if factor ≤ 1 then w else w.map (fun row => decimate_row row factor method)

/-- Model of `decimate_for_plot`: choose the factor from the matrix's column
count and the rendered pixel width, then decimate. -/
noncomputable def decimate_for_plot (w : List (List ℝ)) (fig_width_px : ℕ)
    (method : DecimationMethod) : List (List ℝ) :=
  decimate_data w (choose_decimation_factor (w.headD []).length fig_width_px) method

/-! ## Capture runs and the frame sink (`core/objects.py`,
`recorder/fft_record_sink.py`) -/

/-- Frequency range (ROI / crop window) from `core/objects.py`. -/
structure FreqRangeSpec where
  id : String
  freq_start : ℚ
  freq_end : ℚ
  crop_margin_khz : ℚ
  deriving DecidableEq

/-- The fields of `CaptureSpec` consumed by the embedded operations. -/
structure CaptureSpecModel where
  id : String
  freq_range : Option FreqRangeSpec
  deriving DecidableEq

/-- The fields of `CaptureRun` consumed by the embedded operations.
Frequencies are in Hz as at runtime; `capture_start_time` is stamped by the
sink (modelled as an abstract timestamp). -/
structure CaptureRunModel where
  id : String
  freq : ℤ
  span : ℤ
  freq_effective : ℤ
  span_effective : ℤ
  rec_time_ms : ℤ
  capture_start_time : Option ℤ
  spec : Option CaptureSpecModel
  deriving DecidableEq

/-- Model of `CaptureRun.__init__`: the effective parameters start out equal
to the requested ones, and `capture_start_time` is unset. -/
def CaptureRunModel.init (id : String) (freq span : ℤ) (rec_time_ms : ℤ)
    (spec : Option CaptureSpecModel) : CaptureRunModel :=
  { id := id, freq := freq, span := span, freq_effective := freq, span_effective := span
    rec_time_ms := rec_time_ms, capture_start_time := none, spec := spec }

/-- State of `fft_record_sink` as held in its instance attributes. -/
structure SinkState where
  is_recording : Bool
  is_finalizing : Bool
  rec_time : ℤ
  start_time : Option ℤ
  current_run : Option CaptureRunModel
  data : List (List ℤ)
  deriving DecidableEq

/-- Model of `fft_record_sink.start_record`: guarded only by `is_recording`;
otherwise it stamps the run's capture start time, stores the run, raises the
recording flag, clears the finalizing flag and empties the frame buffer.
Returns the new sink state and the (possibly stamped) run object. -/
def start_record (s : SinkState) (run : CaptureRunModel) (now : ℤ) :
    SinkState × CaptureRunModel :=
  if s.is_recording then (s, run)
  else
    let stamped := { run with capture_start_time := some now }
    ({ s with rec_time := run.rec_time_ms
              is_recording := true
              is_finalizing := false
              start_time := some now
              current_run := some stamped
              data := [] },
     stamped)

/-! ## Spectrogram cropper (`data/fft_data.py`: `crop_waterfall_spectrum`,
`load_and_crop_data`) -/

instance {ε α : Type} [DecidableEq ε] [DecidableEq α] : DecidableEq (Except ε α) := by
  intro a b
  cases a <;> cases b
  case error.error x y => exact decidable_of_iff (x = y) (by simp)
  case error.ok x y => exact isFalse (by simp)
  case ok.error x y => exact isFalse (by simp)
  case ok.ok x y => exact decidable_of_iff (x = y) (by simp)

/-- Model of `crop_waterfall_spectrum` over exact rationals.  Python's raised
`ValueError`s become `Except.error` with the matching message family.  Returns
`(cropped, actual_start_freq, actual_end_freq, start_bin, end_bin)` on
success. -/
def crop_waterfall_spectrum (waterfall : List (List ℚ))
    (center_frequency span crop_start_freq crop_end_freq : ℚ) :
    Except String (List (List ℚ) × ℚ × ℚ × ℤ × ℤ) :=
  let ncols : ℕ := (waterfall.headD []).length
  let original_start_freq := center_frequency - span / 2
  let original_end_freq := center_frequency + span / 2
  let freq_per_bin := span / ncols
  if crop_end_freq < original_start_freq ∨ crop_start_freq > original_end_freq then
    .error "Crop range is outside original spectrum"
  else if crop_start_freq ≥ crop_end_freq then
    .error "Invalid crop range: start must be lower than end"
  else
    let clamped_start_freq := max crop_start_freq original_start_freq
    let clamped_end_freq := min crop_end_freq original_end_freq
    let start_bin := max 0 (pyRound ((clamped_start_freq - original_start_freq) / freq_per_bin))
    let end_bin := min (ncols : ℤ)
      (pyRound ((clamped_end_freq - original_start_freq) / freq_per_bin))
    if end_bin ≤ start_bin then .error "Invalid bin range"
    else
      let cropped := waterfall.map
        (fun row => (row.drop start_bin.toNat).take (end_bin - start_bin).toNat)
      .ok (cropped, original_start_freq + start_bin * freq_per_bin,
        original_start_freq + end_bin * freq_per_bin, start_bin, end_bin)

/-- Model of `load_and_crop_data` after the raw data is loaded: when the
run's spec carries a `freq_range`, crop with the configured margin and update
the run's effective center/span in Hz (truncating with `int(...)`); when
cropping raises, fall back to the uncropped matrix with the run unchanged.
Returns `(data, cropped or none, updated run)`. -/
def load_and_crop_data (run : CaptureRunModel) (data : List (List ℚ)) :
    List (List ℚ) × Option (List (List ℚ)) × CaptureRunModel :=
  match run.spec with
  | none => (data, none, run)
  | some sp =>
    match sp.freq_range with
    | none => (data, none, run)
    | some freq_range =>
      let center_frequency := (run.freq : ℚ) / 1000
      let span := (run.span : ℚ) / 1000
      let crop_start_freq := freq_range.freq_start - freq_range.crop_margin_khz
      let crop_end_freq := freq_range.freq_end + freq_range.crop_margin_khz
      match crop_waterfall_spectrum data center_frequency span crop_start_freq
          crop_end_freq with
      | .error _ => (data, none, run)
      | .ok (cropped, actual_start, actual_end, _, _) =>
          (data, some cropped,
           { run with
              freq_effective := pyInt ((actual_start + actual_end) / 2 * 1000)
              span_effective := pyInt ((actual_end - actual_start) * 1000) })

/-! ## RMS CSV store (`data/rms.py`)

The CSV file is modelled at the level of its parsed content: the header's
spec-id columns (the columns after `avg`) and the data rows, each row carrying
its six metadata fields and its per-spec cells as written. -/

/-- Note sanitization of `write_csv` step 5:
`(note or "").replace("\n", " ").replace(",", ";")`. -/
def safeNote (note : String) : String := (note.replace "\n" " ").replace "," ";"

/-- One data row of an RMS CSV, as parsed by `csv.DictReader`: the metadata
fields and the spec-value cells keyed by spec column name. -/
structure RmsRow where
  counter : String
  date : String
  time : String
  note : String
  total : String
  avg : String
  cells : List (String × String)
  deriving DecidableEq

/-- Parsed content of an RMS CSV file: header spec columns and data rows. -/
structure RmsCsv where
  specCols : List String
  rows : List RmsRow
  deriving DecidableEq

/-- Model of `_read_csv_spec_columns`: the spec columns of the existing file's
header (everything after `avg`), or `[]` when the file does not exist. -/
def read_csv_spec_columns : Option RmsCsv → List String
  | none => []
  | some f => f.specCols

/-- Loop body of `_merge_spec_columns`: append the spec id unless already
present. -/
def merge_step (acc : List String) (spec_id : String) : List String :=
  if spec_id ∈ acc then acc else acc ++ [spec_id]

/-- Model of `_merge_spec_columns`: keep the existing order and append new
spec ids at the tail; report whether the columns changed. -/
def merge_spec_columns (existing_columns current_spec_ids : List String) :
    List String × Bool :=
  let canonical_columns := current_spec_ids.foldl merge_step existing_columns
  (canonical_columns, decide (canonical_columns ≠ existing_columns))

/-- First-match association lookup, as a Python `dict` read of a parsed CSV
row (row keys are unique in a well-formed file). -/
def alookup (key : String) : List (String × String) → Option String
  | [] => none
  | (k, v) :: r => if key = k then some v else alookup key r

/-- Per-row body of `_rewrite_csv_with_new_columns`: re-emit the row's cells
in the new column order, using `-1` for columns the row does not have
(`row.get(col, '-1')`); metadata fields are preserved unchanged. -/
def rewrite_row (new_columns : List String) (r : RmsRow) : RmsRow :=
  { r with cells := new_columns.map (fun c => (c, (alookup c r.cells).getD "-1")) }

/-- Model of `_rewrite_csv_with_new_columns`: keep every data row, rewritten
to the new column order. -/
def rewrite_csv_with_new_columns (f : RmsCsv) (new_columns : List String) : RmsCsv :=
  { specCols := new_columns
    rows := f.rows.map (rewrite_row new_columns) }

/-- Value stored for a current spec (`round(rms_data[i]) if rms_data[i] is
not None else 0`). -/
def rms_int_value : Option ℚ → ℤ
  | some q => pyRound q
  | none => 0

/-- Functional update of the `current_specs` dict. -/
def dict_update (m : String → Option ℤ) (k : String) (v : ℤ) : String → Option ℤ :=
  fun c => if c = k then some v else m c

/-- The `current_specs` dict of `write_csv` step 2: built left to right over
the current spec ids, later bindings overwriting earlier ones. -/
def current_specs (capture_ids : List String) (rms_data : List (Option ℚ)) :
    String → Option ℤ :=
  (capture_ids.zip rms_data).foldl
    (fun m p => dict_update m p.1 (rms_int_value p.2)) (fun _ => none)

/-- The per-column value of the appended row: `current_specs.get(col, -1)`. -/
def spec_value (capture_ids : List String) (rms_data : List (Option ℚ)) (col : String) : ℤ :=
  (current_specs capture_ids rms_data col).getD (-1)

/-- The data row appended by `write_csv` (steps 4, 5 and 7): spec values in
canonical column order with `-1` for specs absent from the current batch, and
`total`/`avg` computed over the values that are not `-1` (`avg` falling back
to 0 when no value is active). -/
def write_csv_new_row (existing_columns : List String) (rms_data : List (Option ℚ))
    (capture_ids : List String) (counter : ℤ) (date_string time_string note : String) :
    RmsRow :=
  let canonical_columns := (merge_spec_columns existing_columns capture_ids).1
  let rms_values := canonical_columns.map (spec_value capture_ids rms_data)
  let active_values := rms_values.filter (fun v => v ≠ -1)
  let total : ℤ := active_values.sum
  let avg_value : ℤ :=
    if active_values ≠ [] then pyRound ((total : ℚ) / active_values.length) else 0
  { counter := toString counter, date := date_string, time := time_string
    note := safeNote note, total := toString total, avg := toString avg_value
    cells := canonical_columns.map
      (fun c => (c, toString (spec_value capture_ids rms_data c))) }

/-- Model of `write_csv` on the parsed file state: read the existing columns,
merge with the current spec ids, rewrite the file when the columns changed
(truncating when the existing header had no spec columns, as the `'w'`-mode
branch does), and append the new data row. -/
def write_csv (state : Option RmsCsv) (rms_data : List (Option ℚ)) (capture_ids : List String)
    (counter : ℤ) (date_string time_string note : String) : RmsCsv :=
  let existing_columns := read_csv_spec_columns state
  let canonical_columns := (merge_spec_columns existing_columns capture_ids).1
  let columns_changed := (merge_spec_columns existing_columns capture_ids).2
  let base : RmsCsv :=
    if columns_changed then
      match state with
      | some f =>
          if f.specCols ≠ [] then rewrite_csv_with_new_columns f canonical_columns
          else { specCols := canonical_columns, rows := [] }
      | none => { specCols := canonical_columns, rows := [] }
    else state.getD { specCols := [], rows := [] }
  { base with rows := base.rows ++
      [write_csv_new_row existing_columns rms_data capture_ids counter
        date_string time_string note] }

/-! ## RMS analysis kernel (`data/analysis.py`)

Mask construction and bin bookkeeping are exact rational/integer arithmetic
and stay computable; the signal path (dB→linear conversion, RMS, logarithms,
percentiles) is embedded over `ℝ`.  Of the collected log lines only the
no-bins warning is modelled (as a flag), since the remaining lines merely
format numeric diagnostics. -/

/-- Frequencies excluded from RMS analysis (`config/analysis.py`). -/
def exclude_freqs_khz : List ℚ := [0, 28800]

/-- NumPy-style slice assignment `mask[s:e+1] = v` on a boolean mask, with
the running index carried explicitly. -/
def mask_set_range : List Bool → ℤ → ℤ → ℤ → Bool → List Bool
  | [], _, _, _, _ => []
  | b :: rest, i, s, e, v =>
      (if s ≤ i ∧ i ≤ e then v else b) :: mask_set_range rest (i + 1) s e v

/-- Model of `build_include_mask`: start all-true, and for each exclusion
center clear the clamped window `[f0 - half, f0 + half]` when the guarded
bin range is sane. -/
def build_include_mask (n_bins : ℕ) (center_frequency span : ℚ) (excl : List ℚ)
    (half_window_khz : ℚ) : List Bool :=
  let start_freq := center_frequency - span / 2
  let freq_per_bin := span / n_bins
  excl.foldl (fun include_mask f0 =>
    let start_bin := max 0 (pyRound ((f0 - half_window_khz - start_freq) / freq_per_bin))
    let end_bin := min ((n_bins : ℤ) - 1)
      (pyRound ((f0 + half_window_khz - start_freq) / freq_per_bin))
    if start_bin ≤ end_bin ∧ start_bin < (n_bins : ℤ) ∧ 0 ≤ end_bin then
      mask_set_range include_mask 0 start_bin end_bin false
    else include_mask)
    (List.replicate n_bins true)

/-- Model of `build_core_rms_mask`: all-true when no `freq_range` is set,
otherwise true exactly on the clamped core window (margins excluded). -/
def build_core_rms_mask (n_bins : ℕ) (start_freq freq_per_bin : ℚ)
    (freq_range : Option FreqRangeSpec) : List Bool :=
  match freq_range with
  | none => List.replicate n_bins true
  | some fr =>
    let start_bin_core :=
      max 0 (min ((n_bins : ℤ) - 1) ⌈(fr.freq_start - start_freq) / freq_per_bin⌉)
    let end_bin_core :=
      max 0 (min ((n_bins : ℤ) - 1) ⌊(fr.freq_end - start_freq) / freq_per_bin⌋)
    if start_bin_core ≤ end_bin_core then
      mask_set_range (List.replicate n_bins false) 0 start_bin_core end_bin_core true
    else List.replicate n_bins false

/-- The combined inclusion mask of `calculate_rms`: global exclusions
intersected with the core `freq_range` window, built from the run's effective
center/span. -/
def rms_combined_mask (run : CaptureRunModel) (n_bins : ℕ) : List Bool :=
  let center_frequency := (run.freq_effective : ℚ) / 1000
  let span := (run.span_effective : ℚ) / 1000
  let start_freq := center_frequency - span / 2
  let freq_per_bin := span / n_bins
  List.zipWith (fun a b => a && b)
    (build_include_mask n_bins center_frequency span exclude_freqs_khz 1)
    (build_core_rms_mask n_bins start_freq freq_per_bin
      (run.spec.bind (fun sp => sp.freq_range)))

/-- Number of bins surviving the combined mask
(`np.count_nonzero(include_mask)`). -/
def rms_included_count (run : CaptureRunModel) (n_bins : ℕ) : ℕ :=
  (rms_combined_mask run n_bins).countP (fun b => b)

/-- Column-wise mean over time (`np.mean(data, axis=0)`). -/
noncomputable def columnMeans (data : List (List ℝ)) : List ℝ :=
  (List.range (data.headD []).length).map
    (fun j => (data.map (fun r => r.getD j 0)).sum / data.length)

/-- dB to linear power (`10**(x/10)`). -/
noncomputable def dbToLinear (x : ℝ) : ℝ := (10 : ℝ) ^ (x / 10)

/-- Boolean-mask selection (`arr[mask]`). -/
def applyMask {α : Type} (mask : List Bool) (l : List α) : List α :=
  ((mask.zip l).filter (fun p => p.1)).map (fun p => p.2)

/-- Ascending sort of the samples, as `np.percentile` performs internally. -/
noncomputable def sortedAsc (l : List ℝ) : List ℝ := l.mergeSort (fun a b => a ≤ b)

/-- NumPy's default linear-interpolation percentile. -/
noncomputable def npPercentile (l : List ℝ) (p : ℚ) : ℝ :=
  let a := sortedAsc l
  let h : ℚ := p / 100 * ((a.length : ℚ) - 1)
  let vlo := a.getD (⌊h⌋).toNat 0
  let vhi := a.getD (⌈h⌉).toNat 0
  vlo + ((h - ⌊h⌋ : ℚ) : ℝ) * (vhi - vlo)

/-- Model of `calculate_truncated_rms`: cap the top `truncation_pct`% of the
linear-power bins at the `100 - pct` percentile, recompute the RMS, convert to
dB and normalize (clamping only below at 0).  Returns
`(truncated_rms_normalized, threshold_db, capped_bins)`. -/
noncomputable def calculate_truncated_rms (avg_wf : List ℝ) (min_db_val max_db_val : ℚ)
    (include_mask : Option (List Bool)) (truncation_pct : ℚ) : ℝ × ℝ × ℕ :=
  let avg_wf_filtered :=
    match include_mask with
    | some mask => applyMask mask avg_wf
    | none => avg_wf
  let linear_power_filtered := avg_wf_filtered.map dbToLinear
  let threshold_linear := npPercentile linear_power_filtered (100 - truncation_pct)
  let capped_bins := linear_power_filtered.countP (fun x => threshold_linear < x)
  let truncated_linear := linear_power_filtered.map
    (fun x => if threshold_linear < x then threshold_linear else x)
  let threshold_db : ℝ :=
    if 0 < threshold_linear then 10 * Real.logb 10 threshold_linear else -100
  let trunc_rms_linear := Real.sqrt (npMean (truncated_linear.map (fun x => x ^ 2)))
  let trunc_rms_db : ℝ :=
    if 0 < trunc_rms_linear then 10 * Real.logb 10 trunc_rms_linear else -100
  let trunc_rms_normalized : ℝ :=
    if (min_db_val : ℝ) < (max_db_val : ℝ) then
      ((trunc_rms_db - (min_db_val : ℝ)) / ((max_db_val : ℝ) - (min_db_val : ℝ))) * 100
    else 0
  (max 0 trunc_rms_normalized, threshold_db, capped_bins)

/-- The RMS of the masked linear power in dB (`10*log10(sqrt(mean(P²)))` with
the `-100` fallback for non-positive RMS). -/
noncomputable def rms_db_value (run : CaptureRunModel) (data : List (List ℝ)) : ℝ :=
  let avg_wf := columnMeans data
  let include_mask := rms_combined_mask run avg_wf.length
  let linear_power_filtered := applyMask include_mask (avg_wf.map dbToLinear)
  let rms_linear := Real.sqrt (npMean (linear_power_filtered.map (fun x => x ^ 2)))
  if 0 < rms_linear then 10 * Real.logb 10 rms_linear else -100

/-- The normalized RMS before the lower clamp: the dB-domain scaling of
`calculate_rms` (zero when the normalization range is degenerate). -/
noncomputable def rms_raw_normalized (run : CaptureRunModel) (data : List (List ℝ))
    (min_db_val max_db_val : ℚ) : ℝ :=
  if (min_db_val : ℝ) < (max_db_val : ℝ) then
    ((rms_db_value run data - (min_db_val : ℝ)) / ((max_db_val : ℝ) - (min_db_val : ℝ))) * 100
  else 0

/-- Return value of `calculate_rms`: the triple
`(rms_normalized, include_mask, rms_truncated_5)` plus a flag recording
whether the empty-mask warning was logged. -/
structure RmsAnalysisResult where
  rms_normalized : Option ℝ
  include_mask : List Bool
  rms_truncated : Option ℝ
  warned_no_bins : Bool

/-- Model of `calculate_rms`: build the combined mask; when no bin survives,
return `(None, mask, None)` and log the warning; otherwise return the
lower-clamped normalized RMS and the 5%-truncated RMS. -/
noncomputable def calculate_rms (run : CaptureRunModel) (data : List (List ℝ))
    (min_db_val max_db_val : ℚ) : RmsAnalysisResult :=
  let avg_wf := columnMeans data
  let include_mask := rms_combined_mask run avg_wf.length
  if rms_included_count run avg_wf.length = 0 then
    { rms_normalized := none, include_mask := include_mask, rms_truncated := none
      warned_no_bins := true }
  else
    { rms_normalized := some (max 0 (rms_raw_normalized run data min_db_val max_db_val))
      include_mask := include_mask
      rms_truncated := some ((calculate_truncated_rms avg_wf min_db_val max_db_val
        (some include_mask) 5).1)
      warned_no_bins := false }

/-- Merged header spec columns as the spec states them: the existing columns
followed by the current spec ids not already present, in their current order. -/
def merged_columns (existing current : List String) : List String :=
  existing ++ current.filter (fun c => c ∉ existing)

/-- The appended row's spec values that are not `-1` (the values entering the
`total`/`avg` computation). -/
def active_rms_values (existing current : List String) (rms_data : List (Option ℚ)) :
    List ℤ :=
  ((merged_columns existing current).map (spec_value current rms_data)).filter
    (fun v => v ≠ -1)

/-! # Theorems -/

/-! ## C2: raw codec round trip -/

theorem toInt32_eq_self (x : ℤ) (h1 : -2 ^ 31 ≤ x) (h2 : x < 2 ^ 31) : toInt32 x = x := by
  unfold toInt32
  have h3 : (x + 2 ^ 31) % 2 ^ 32 = x + 2 ^ 31 := Int.emod_eq_of_lt (by omega) (by omega)
  omega

theorem map_toInt32_id (r : List ℤ) (h : ∀ x ∈ r, -2 ^ 31 ≤ x ∧ x < 2 ^ 31) :
    r.map toInt32 = r := by
  induction r with
  | nil => rfl
  | cons x xs ih =>
      simp only [List.map_cons]
      rw [toInt32_eq_self x (h x (by simp)).1 (h x (by simp)).2,
        ih (fun y hy => h y (by simp [hy]))]

theorem map_map_toInt32_id (X : List (List ℤ))
    (h : ∀ r ∈ X, ∀ x ∈ r, -2 ^ 31 ≤ x ∧ x < 2 ^ 31) :
    X.map (fun r => r.map toInt32) = X := by
  induction X with
  | nil => rfl
  | cons r X ih =>
      simp only [List.map_cons]
      rw [map_toInt32_id r (h r (by simp)), ih (fun s hs => h s (by simp [hs]))]

theorem unflatten_flatten (c : ℕ) (X : List (List ℤ)) (h : ∀ r ∈ X, r.length = c) :
    unflatten X.length c X.flatten = X := by
  induction X with
  | nil => rfl
  | cons r X ih =>
      have hr : r.length = c := h r (by simp)
      have hrest : ∀ s ∈ X, s.length = c := fun s hs => h s (by simp [hs])
      simp only [List.length_cons, List.flatten_cons, unflatten]
      rw [List.take_left' hr, List.drop_left' hr, ih hrest]

/-- C2: loading the file produced by `write_raw` for a 2-D int32 matrix `X`
returns `X` (round trip), the loader's `expected_fft_size` argument has no
influence on any load, and the shape of `write_raw`'s output is dictated by
the serialized header (`rows × cols` of `X`). -/
theorem c2_write_load_roundtrip (X : List (List ℤ)) (s₁ s₂ : Option Nat)
    (hrect : ∀ r ∈ X, r.length = (X.headD []).length)
    (hrange : ∀ r ∈ X, ∀ x ∈ r, -2 ^ 31 ≤ x ∧ x < 2 ^ 31) :
    load_raw_fft_data (write_raw X) s₁ = X ∧
    (∀ (f : NpyFile) (t₁ t₂ : Option Nat), load_raw_fft_data f t₁ = load_raw_fft_data f t₂) ∧
    (write_raw X).rows = X.length ∧ (write_raw X).cols = (X.headD []).length := by
  refine ⟨?_, fun f t₁ t₂ => rfl, rfl, rfl⟩
  unfold load_raw_fft_data write_raw
  simp only [map_map_toInt32_id X hrange]
  exact unflatten_flatten _ X hrect

/-- Witness for `c2_write_load_roundtrip` at a concrete 2×3 matrix. -/
theorem c2_write_load_roundtrip_witness :
    load_raw_fft_data (write_raw [[1, -2, 3], [4, 5, -6]]) (some 1024) = [[1, -2, 3], [4, 5, -6]] :=
  (c2_write_load_roundtrip [[1, -2, 3], [4, 5, -6]] (some 1024) none
    (by decide) (by decide)).1

/-! ## C3: batch counter law -/

/-- C3: across consecutive batches the stamped counter satisfies
`counter(b+1) = counter(b) + 1 + (6 if batch b ran in calibration mode)`;
the calibration configuration list has 7 entries, so a calibration batch
performs `len(db_configs) - 1 = 6` extra increments after its sets. -/
theorem c3_counter_law (c : ℤ) (calib calib' : Bool) (bm bM bm' bM' : ℚ) :
    (execute_capture_counter ((execute_capture_counter c calib bm bM).2) calib' bm' bM').1
      = (execute_capture_counter c calib bm bM).1 + 1 + (if calib then 6 else 0) ∧
    (db_configurations bm bM true).length = 7 ∧
    ((db_configurations bm bM true).length - 1 : ℕ) = 6 := by
  cases calib <;>
      simp [execute_capture_counter, process_sets_counter_adjust, inc_counter,
        db_configurations] <;>
    omega

/-! ## C8: display-width decimation factor -/

theorem find_allowed_least (n : ℕ) (hn : n ≤ 16) :
    ∃ f, allowed_decimation_factors.find? (fun g => n ≤ g) = some f ∧
      f ∈ allowed_decimation_factors ∧ n ≤ f ∧
      ∀ g ∈ allowed_decimation_factors, n ≤ g → f ≤ g := by
  interval_cases n <;>
    first
      | exact ⟨1, by decide⟩
      | exact ⟨2, by decide⟩
      | exact ⟨3, by decide⟩
      | exact ⟨4, by decide⟩
      | exact ⟨6, by decide⟩
      | exact ⟨8, by decide⟩
      | exact ⟨12, by decide⟩
      | exact ⟨16, by decide⟩

theorem find_allowed_none (n : ℕ) (hn : 16 < n) :
    allowed_decimation_factors.find? (fun g => n ≤ g) = none := by
  apply List.find?_eq_none.mpr
  intro x hx
  simp only [decide_eq_true_eq]
  fin_cases hx <;> omega

/-- C8 counterexample: at 150 columns and target width 100 the chosen factor
is 1, yet the smallest allowed factor that is ≥ `ceil(150/100) = 2` is 2, so
the chosen factor is not that smallest value. -/
theorem c8_counterexample :
    choose_decimation_factor 150 100 = 1 ∧
    (150 + 100 - 1) / 100 = 2 ∧
    (2 ∈ allowed_decimation_factors ∧ 2 ≤ 2 ∧
      ∀ g ∈ allowed_decimation_factors, (150 + 100 - 1) / 100 ≤ g → 2 ≤ g) ∧
    (1 : ℕ) ≠ 2 := by decide

/-- C8 (amended): when `cols ≤ target` or `cols < 200` the factor is 1 and no
decimation is applied; otherwise the factor is the smallest allowed value at
least `ceil(cols/target)` when that quotient is at most 16, and 16 (the
largest allowed factor) when it exceeds 16. -/
theorem c8_decimation_factor (w : List (List ℝ)) (px : ℕ) (method : DecimationMethod)
    (hpx : 0 < px) :
    ((w.headD []).length ≤ px ∨ (w.headD []).length < 200 →
       choose_decimation_factor (w.headD []).length px = 1 ∧
       decimate_for_plot w px method = w) ∧
    (200 ≤ (w.headD []).length → px < (w.headD []).length →
       (((w.headD []).length + px - 1) / px ≤ 16 →
          choose_decimation_factor (w.headD []).length px ∈ allowed_decimation_factors ∧
          ((w.headD []).length + px - 1) / px ≤ choose_decimation_factor (w.headD []).length px ∧
          ∀ g ∈ allowed_decimation_factors,
            ((w.headD []).length + px - 1) / px ≤ g →
              choose_decimation_factor (w.headD []).length px ≤ g) ∧
       (16 < ((w.headD []).length + px - 1) / px →
          choose_decimation_factor (w.headD []).length px = 16)) := by
  have hmax : max 1 px = px := by omega
  set n := (w.headD []).length with hn
  constructor
  · intro h
    have h1 : choose_decimation_factor n px = 1 := by
      unfold choose_decimation_factor
      rw [hmax]
      simp only [if_pos h]
    refine ⟨h1, ?_⟩
    unfold decimate_for_plot
    rw [← hn, h1]
    simp [decimate_data]
  · intro h200 hlt
    have hcond : ¬(n ≤ max 1 px ∨ n < 200) := by omega
    have hfe : choose_decimation_factor n px
        = ((allowed_decimation_factors.find? (fun g => (n + px - 1) / px ≤ g)).getD
            (allowed_decimation_factors.getLastD 1)) := by
      unfold choose_decimation_factor
      rw [if_neg hcond, hmax]
    constructor
    · intro hle
      obtain ⟨f, hfind, hmem, hnf, hleast⟩ := find_allowed_least ((n + px - 1) / px) hle
      rw [hfe, hfind]
      exact ⟨hmem, hnf, hleast⟩
    · intro hgt
      rw [hfe, find_allowed_none _ hgt]
      rfl

/-- Witness for `c8_decimation_factor`: at 400 columns and 100 px target the
chosen factor is the smallest allowed value ≥ 4, namely 4. -/
theorem c8_decimation_factor_witness :
    choose_decimation_factor 400 100 ∈ allowed_decimation_factors ∧
    (400 + 100 - 1) / 100 ≤ choose_decimation_factor 400 100 := by
  have hlen : ([List.replicate 400 (0 : ℝ)].headD []).length = 400 := by
    rw [List.headD_cons, List.length_replicate]
  have h := (c8_decimation_factor [List.replicate 400 (0 : ℝ)] 100 DecimationMethod.mean
    (by norm_num)).2
  rw [hlen] at h
  have h4 := (h (by norm_num) (by norm_num)).1 (by norm_num)
  exact ⟨h4.1, h4.2.1⟩

/-! ## C9: start_record in non-Idle states -/

/-- C9 counterexample: in the post-finalization state
(`is_recording = false`, `is_finalizing = true`) — a non-Idle state by the
flag reading — `start_record` does have side effects: the sink state changes
and the run is stamped. -/
theorem c9_counterexample :
    (start_record ⟨false, true, 5000, some 1, none, [[1]]⟩
        ⟨"40m", 7100000, 200000, 7100000, 200000, 2000, none, none⟩ 7).1
      ≠ ⟨false, true, 5000, some 1, none, [[1]]⟩ ∧
    (start_record ⟨false, true, 5000, some 1, none, [[1]]⟩
        ⟨"40m", 7100000, 200000, 7100000, 200000, 2000, none, none⟩ 7).2.capture_start_time
      = some 7 := by
  constructor
  · intro h
    have := congrArg SinkState.is_recording h
    simp [start_record] at this
  · rfl

/-- C9 (amended): `start_record` is a no-op exactly in the guard's sense: when
`is_recording` is set, the sink state and the passed run are returned
unchanged.  (When `is_recording` is clear — even if `is_finalizing` is still
set from a completed flush — the call proceeds and restarts recording.) -/
theorem c9_start_record_no_side_effect (s : SinkState) (run : CaptureRunModel) (now : ℤ)
    (h : s.is_recording = true) :
    start_record s run now = (s, run) := by
  simp [start_record, h]

/-- Witness for `c9_start_record_no_side_effect` at a concrete recording sink. -/
theorem c9_start_record_no_side_effect_witness :
    start_record ⟨true, false, 3000, some 5, none, [[2]]⟩
        ⟨"20m", 14100000, 200000, 14100000, 200000, 2000, none, none⟩ 9
      = (⟨true, false, 3000, some 5, none, [[2]]⟩,
         ⟨"20m", 14100000, 200000, 14100000, 200000, 2000, none, none⟩) :=
  c9_start_record_no_side_effect _ _ _ rfl

/-! ## C1 and C10: RMS CSV schema evolution -/

theorem foldl_merge_step (C : List String) :
    C.Nodup → ∀ E, C.foldl merge_step E = E ++ C.filter (fun c => c ∉ E) := by
  induction C with
  | nil => intro _ E; simp
  | cons c C ih =>
      intro h E
      obtain ⟨hcC, hC⟩ := List.nodup_cons.mp h
      simp only [List.foldl_cons, List.filter_cons]
      by_cases hcE : c ∈ E
      · have hd : decide (c ∉ E) = false := by simp [hcE]
        rw [hd]
        simp only [Bool.false_eq_true, if_false]
        rw [show merge_step E c = E from by simp [merge_step, hcE]]
        exact ih hC E
      · have hd : decide (c ∉ E) = true := by simp [hcE]
        rw [hd]
        simp only [if_true]
        rw [show merge_step E c = E ++ [c] from by simp [merge_step, hcE]]
        have hcong : C.filter (fun x => decide (x ∉ E ++ [c]))
            = C.filter (fun x => decide (x ∉ E)) := by
          apply List.filter_congr
          intro x hx
          have hxc : x ≠ c := fun he => hcC (he ▸ hx)
          simp [List.mem_append, hxc]
        rw [ih hC (E ++ [c]), hcong, List.append_assoc]
        rfl

theorem merge_fst (E C : List String) (hC : C.Nodup) :
    (merge_spec_columns E C).1 = merged_columns E C := by
  change C.foldl merge_step E = _
  exact foldl_merge_step C hC E

theorem merge_changed (E C : List String) (hC : C.Nodup) :
    ((merge_spec_columns E C).2 = true) ↔ C.filter (fun c => c ∉ E) ≠ [] := by
  change (decide (C.foldl merge_step E ≠ E) = true) ↔ _
  rw [decide_eq_true_eq, foldl_merge_step C hC E]
  have hiff : (E ++ C.filter (fun c => c ∉ E) = E) ↔ C.filter (fun c => c ∉ E) = [] := by
    constructor
    · intro h
      have hlen := congrArg List.length h
      simp only [List.length_append] at hlen
      exact List.length_eq_zero.mp (by omega)
    · intro h
      rw [h, List.append_nil]
  exact not_congr hiff

theorem alookup_map_self (g : String → String) (c : String) (l : List String) (h : c ∈ l) :
    alookup c (l.map (fun x => (x, g x))) = some (g c) := by
  induction l with
  | nil => cases h
  | cons a l ih =>
      simp only [List.map_cons, alookup]
      by_cases hca : c = a
      · subst hca
        simp
      · rw [if_neg hca]
        exact ih ((List.mem_cons.mp h).resolve_left hca)

theorem alookup_eq_none (c : String) (l : List (String × String)) (h : c ∉ l.map Prod.fst) :
    alookup c l = none := by
  induction l with
  | nil => rfl
  | cons p l ih =>
      obtain ⟨k, v⟩ := p
      simp only [List.map_cons, List.mem_cons] at h
      push_neg at h
      simp only [alookup]
      rw [if_neg h.1]
      exact ih h.2

theorem alookup_isSome (c : String) (l : List (String × String)) (h : c ∈ l.map Prod.fst) :
    ∃ v, alookup c l = some v := by
  induction l with
  | nil => cases h
  | cons p l ih =>
      obtain ⟨k, v⟩ := p
      simp only [alookup]
      by_cases hck : c = k
      · exact ⟨v, by rw [if_pos hck]⟩
      · rw [if_neg hck]
        apply ih
        simp only [List.map_cons, List.mem_cons] at h
        exact h.resolve_left hck

theorem foldl_dict_not_mem (c : String) (l : List (String × Option ℚ)) :
    ∀ m : String → Option ℤ, c ∉ l.map Prod.fst →
      (l.foldl (fun m p => dict_update m p.1 (rms_int_value p.2)) m) c = m c := by
  induction l with
  | nil => intro m _; rfl
  | cons p l ih =>
      intro m h
      simp only [List.map_cons, List.mem_cons] at h
      push_neg at h
      simp only [List.foldl_cons]
      rw [ih _ h.2]
      simp [dict_update, h.1]

theorem foldl_dict_mem (c : String) (d : Option ℚ) (l : List (String × Option ℚ)) :
    ∀ m : String → Option ℤ, (l.map Prod.fst).Nodup → (c, d) ∈ l →
      (l.foldl (fun m p => dict_update m p.1 (rms_int_value p.2)) m) c
        = some (rms_int_value d) := by
  induction l with
  | nil => intro m _ h; cases h
  | cons p l ih =>
      intro m hnd hmem
      simp only [List.map_cons, List.nodup_cons] at hnd
      simp only [List.foldl_cons]
      rcases List.mem_cons.mp hmem with heq | hmem'
      · subst heq
        rw [foldl_dict_not_mem c l _ hnd.1]
        simp [dict_update]
      · exact ih _ hnd.2 hmem'

theorem current_specs_not_mem (C : List String) (D : List (Option ℚ)) (c : String)
    (h : c ∉ C) : current_specs C D c = none := by
  unfold current_specs
  apply foldl_dict_not_mem
  intro hmem
  obtain ⟨p, hp, hpc⟩ := List.mem_map.mp hmem
  exact h (hpc ▸ (List.of_mem_zip hp).1)

theorem current_specs_mem (C : List String) (D : List (Option ℚ)) (c : String)
    (d : Option ℚ) (hC : C.Nodup) (hlen : D.length = C.length) (h : (c, d) ∈ C.zip D) :
    current_specs C D c = some (rms_int_value d) := by
  unfold current_specs
  apply foldl_dict_mem
  · rw [List.map_fst_zip C D hlen.ge]
    exact hC
  · exact h

theorem exists_zip_pair (C : List String) (D : List (Option ℚ)) (c : String)
    (hlen : D.length = C.length) (h : c ∈ C) : ∃ d, (c, d) ∈ C.zip D := by
  have hmem : c ∈ (C.zip D).map Prod.fst := by
    rw [List.map_fst_zip C D hlen.ge]
    exact h
  obtain ⟨⟨c', d⟩, hp, hpc⟩ := List.mem_map.mp hmem
  cases hpc
  exact ⟨d, hp⟩

theorem pyRound_nonneg (q : ℚ) (h : 0 ≤ q) : 0 ≤ pyRound q := by
  unfold pyRound
  have hf : 0 ≤ ⌊q⌋ := Int.floor_nonneg.mpr h
  split_ifs <;> omega

theorem rms_int_value_nonneg (d : Option ℚ) (h : ∀ q, d = some q → 0 ≤ q) :
    0 ≤ rms_int_value d := by
  cases d with
  | none => simp [rms_int_value]
  | some q => exact pyRound_nonneg q (h q rfl)

theorem mem_merged_of_mem_current (E C : List String) (c : String) (h : c ∈ C) :
    c ∈ merged_columns E C := by
  unfold merged_columns
  by_cases hcE : c ∈ E
  · exact List.mem_append_left _ hcE
  · exact List.mem_append_right _ (List.mem_filter.mpr ⟨h, by simp [hcE]⟩)

theorem merge_snd_eq (E C : List String) :
    (merge_spec_columns E C).2 = decide ((merge_spec_columns E C).1 ≠ E) := rfl

theorem merge_unchanged_eq (E C : List String) (h : (merge_spec_columns E C).2 = false) :
    (merge_spec_columns E C).1 = E := by
  rw [merge_snd_eq] at h
  simpa using of_decide_eq_false h

theorem write_csv_some_eq_changed (f : RmsCsv) (D : List (Option ℚ)) (C : List String)
    (cnt : ℤ) (ds ts nt : String) (hE : f.specCols ≠ [])
    (hch : (merge_spec_columns f.specCols C).2 = true) :
    write_csv (some f) D C cnt ds ts nt =
      { specCols := (merge_spec_columns f.specCols C).1
        rows := f.rows.map (rewrite_row (merge_spec_columns f.specCols C).1) ++
          [write_csv_new_row f.specCols D C cnt ds ts nt] } := by
  simp only [write_csv, read_csv_spec_columns, hch, if_true, if_pos hE,
    rewrite_csv_with_new_columns]

theorem write_csv_some_eq_unchanged (f : RmsCsv) (D : List (Option ℚ)) (C : List String)
    (cnt : ℤ) (ds ts nt : String)
    (hch : (merge_spec_columns f.specCols C).2 = false) :
    write_csv (some f) D C cnt ds ts nt =
      { specCols := f.specCols
        rows := f.rows ++ [write_csv_new_row f.specCols D C cnt ds ts nt] } := by
  simp only [write_csv, read_csv_spec_columns, hch, Bool.false_eq_true, if_false,
    Option.getD_some]

theorem write_csv_new_row_fields (E : List String) (D : List (Option ℚ)) (C : List String)
    (cnt : ℤ) (ds ts nt : String) (hC : C.Nodup) :
    (∀ c ∈ merged_columns E C, c ∉ C →
        alookup c (write_csv_new_row E D C cnt ds ts nt).cells = some "-1") ∧
    (write_csv_new_row E D C cnt ds ts nt).total
      = toString (active_rms_values E C D).sum ∧
    (write_csv_new_row E D C cnt ds ts nt).avg
      = toString
          (if active_rms_values E C D ≠ [] then
            pyRound (((active_rms_values E C D).sum : ℚ) / (active_rms_values E C D).length)
          else 0) := by
  have hmerge := merge_fst E C hC
  refine ⟨?_, ?_, ?_⟩
  · intro c hc hcC
    have hcells : (write_csv_new_row E D C cnt ds ts nt).cells
        = (merge_spec_columns E C).1.map (fun x => (x, toString (spec_value C D x))) := rfl
    have hval : spec_value C D c = -1 := by
      unfold spec_value
      rw [current_specs_not_mem C D c hcC]
      rfl
    rw [hcells,
      alookup_map_self (fun x => toString (spec_value C D x)) c _ (by rw [hmerge]; exact hc),
      hval]
    rfl
  · have htot : (write_csv_new_row E D C cnt ds ts nt).total
        = toString ((((merge_spec_columns E C).1.map (spec_value C D)).filter
            (fun v => v ≠ -1)).sum) := rfl
    rw [htot, hmerge]
    rfl
  · have havg : (write_csv_new_row E D C cnt ds ts nt).avg
        = toString
            (if (((merge_spec_columns E C).1.map (spec_value C D)).filter
                  (fun v => v ≠ -1)) ≠ [] then
              pyRound (((((merge_spec_columns E C).1.map (spec_value C D)).filter
                  (fun v => v ≠ -1)).sum : ℚ) /
                ((((merge_spec_columns E C).1.map (spec_value C D)).filter
                  (fun v => v ≠ -1)).length))
            else 0) := rfl
    rw [havg, hmerge]
    rfl

/-- C1: `write_csv` on an existing RMS CSV merges the header's spec columns
with the current batch's spec ids preserving the existing order and appending
the new ids at the tail; every historical row survives with its metadata and
its old spec cells unchanged and `-1` in each newly added column; the appended
row carries `-1` in every column whose spec is not in the current batch; and
the appended row's `total`/`avg` are computed only over its spec values that
are not `-1`. -/
theorem c1_write_csv_schema_evolution
    (f : RmsCsv) (rms_data : List (Option ℚ)) (capture_ids : List String)
    (counter : ℤ) (date_string time_string note : String)
    (hC : capture_ids.Nodup)
    (hE : f.specCols ≠ [])
    (hwf : ∀ r ∈ f.rows, r.cells.map Prod.fst = f.specCols) :
    (write_csv (some f) rms_data capture_ids counter date_string time_string note).specCols
      = merged_columns f.specCols capture_ids ∧
    (write_csv (some f) rms_data capture_ids counter date_string time_string note).rows.length
      = f.rows.length + 1 ∧
    (∀ i, i < f.rows.length →
      ∃ r r', f.rows[i]? = some r ∧
        (write_csv (some f) rms_data capture_ids counter
            date_string time_string note).rows[i]? = some r' ∧
        r'.counter = r.counter ∧ r'.date = r.date ∧ r'.time = r.time ∧
        r'.note = r.note ∧ r'.total = r.total ∧ r'.avg = r.avg ∧
        (∀ c ∈ f.specCols, alookup c r'.cells = alookup c r.cells) ∧
        (∀ c ∈ capture_ids, c ∉ f.specCols → alookup c r'.cells = some "-1")) ∧
    (∃ row,
      (write_csv (some f) rms_data capture_ids counter
          date_string time_string note).rows.getLast? = some row ∧
      (∀ c ∈ merged_columns f.specCols capture_ids, c ∉ capture_ids →
        alookup c row.cells = some "-1") ∧
      row.total = toString (active_rms_values f.specCols capture_ids rms_data).sum ∧
      row.avg = toString
        (if active_rms_values f.specCols capture_ids rms_data ≠ [] then
          pyRound (((active_rms_values f.specCols capture_ids rms_data).sum : ℚ)
            / (active_rms_values f.specCols capture_ids rms_data).length)
        else 0)) := by
  have hmerge : (merge_spec_columns f.specCols capture_ids).1
      = merged_columns f.specCols capture_ids := merge_fst _ _ hC
  have hrowfields := write_csv_new_row_fields f.specCols rms_data capture_ids counter
    date_string time_string note hC
  by_cases hch : (merge_spec_columns f.specCols capture_ids).2 = true
  · rw [write_csv_some_eq_changed f rms_data capture_ids counter date_string time_string
      note hE hch]
    refine ⟨hmerge, by simp, ?_, ?_⟩
    · intro i hi
      have hilt : i < (f.rows.map
          (rewrite_row (merge_spec_columns f.specCols capture_ids).1)).length := by
        simpa using hi
      have hcells : ∀ r : RmsRow,
          (rewrite_row (merge_spec_columns f.specCols capture_ids).1 r).cells
            = (merge_spec_columns f.specCols capture_ids).1.map
                (fun c => (c, (alookup c r.cells).getD "-1")) := fun r => rfl
      refine ⟨f.rows[i],
        rewrite_row (merge_spec_columns f.specCols capture_ids).1 f.rows[i],
        List.getElem?_eq_getElem hi, ?_, rfl, rfl, rfl, rfl, rfl, rfl, ?_, ?_⟩
      · show (_ ++ _)[i]? = _
        rw [List.getElem?_append_left hilt, List.getElem?_map,
          List.getElem?_eq_getElem hi]
        rfl
      · intro c hcE
        have hkeys := hwf f.rows[i] (List.getElem_mem hi)
        obtain ⟨v, hv⟩ := alookup_isSome c f.rows[i].cells (by rw [hkeys]; exact hcE)
        rw [hcells,
          alookup_map_self (fun x => (alookup x f.rows[i].cells).getD "-1") c _
            (by rw [hmerge]; exact List.mem_append_left _ hcE), hv]
        simp
      · intro c hcC hcE
        have hkeys := hwf f.rows[i] (List.getElem_mem hi)
        have hnone : alookup c f.rows[i].cells = none :=
          alookup_eq_none c _ (by rw [hkeys]; exact hcE)
        rw [hcells,
          alookup_map_self (fun x => (alookup x f.rows[i].cells).getD "-1") c _
            (by rw [hmerge]; exact mem_merged_of_mem_current _ _ c hcC), hnone]
        rfl
    · refine ⟨write_csv_new_row f.specCols rms_data capture_ids counter
        date_string time_string note, ?_, hrowfields.1, hrowfields.2.1, hrowfields.2.2⟩
      show (_ ++ [_]).getLast? = _
      rw [List.getLast?_concat]
  · have hchf : (merge_spec_columns f.specCols capture_ids).2 = false :=
      Bool.eq_false_iff.mpr hch
    have hfilter : capture_ids.filter (fun c => c ∉ f.specCols) = [] := by
      by_contra hne
      exact hch ((merge_changed f.specCols capture_ids hC).mpr hne)
    have hmergedE : merged_columns f.specCols capture_ids = f.specCols := by
      unfold merged_columns
      rw [hfilter, List.append_nil]
    rw [write_csv_some_eq_unchanged f rms_data capture_ids counter date_string time_string
      note hchf]
    refine ⟨hmergedE.symm, by simp, ?_, ?_⟩
    · intro i hi
      refine ⟨f.rows[i], f.rows[i], List.getElem?_eq_getElem hi, ?_, rfl, rfl, rfl, rfl,
        rfl, rfl, fun c _ => rfl, ?_⟩
      · show (_ ++ _)[i]? = _
        rw [List.getElem?_append_left hi, List.getElem?_eq_getElem hi]
      · intro c hcC hcE
        have : c ∈ capture_ids.filter (fun c => c ∉ f.specCols) :=
          List.mem_filter.mpr ⟨hcC, by simp [hcE]⟩
        rw [hfilter] at this
        cases this
    · refine ⟨write_csv_new_row f.specCols rms_data capture_ids counter
        date_string time_string note, ?_, hrowfields.1, hrowfields.2.1, hrowfields.2.2⟩
      show (_ ++ [_]).getLast? = _
      rw [List.getLast?_concat]

/-- Witness for `c1_write_csv_schema_evolution`: a file with column `a` and
one row, written with batch specs `a, b`, gets header columns `a, b`. -/
theorem c1_write_csv_schema_evolution_witness :
    (write_csv (some ⟨["a"], [⟨"1", "2025-01-01", "05:00", "", "10", "10", [("a", "10")]⟩]⟩)
        [some 10, some 20] ["a", "b"] 2 "2025-01-01" "06:00" "").specCols
      = merged_columns ["a"] ["a", "b"] :=
  (c1_write_csv_schema_evolution
    ⟨["a"], [⟨"1", "2025-01-01", "05:00", "", "10", "10", [("a", "10")]⟩]⟩
    [some 10, some 20] ["a", "b"] 2 "2025-01-01" "06:00" ""
    (by decide) (by decide) (by decide)).1

theorem write_csv_getLast (state : Option RmsCsv) (D : List (Option ℚ)) (C : List String)
    (cnt : ℤ) (ds ts nt : String) :
    (write_csv state D C cnt ds ts nt).rows.getLast?
      = some (write_csv_new_row (read_csv_spec_columns state) D C cnt ds ts nt) := by
  simp only [write_csv]
  rw [List.getLast?_concat]

/-- C10: when a run's RMS value is null, `write_csv` records 0 — not `-1` —
in that spec's column of the appended row; a spec value is `-1` exactly when
the spec is absent from the current batch; and all current specs (the null
one included) are counted as active in the `total`/`avg` computation. -/
theorem c10_null_rms_recorded_as_zero
    (state : Option RmsCsv) (rms_data : List (Option ℚ)) (capture_ids : List String)
    (counter : ℤ) (date_string time_string note : String) (c : String)
    (hC : capture_ids.Nodup)
    (hlen : rms_data.length = capture_ids.length)
    (hE : (read_csv_spec_columns state).Nodup)
    (hnull : (c, (none : Option ℚ)) ∈ capture_ids.zip rms_data)
    (hnonneg : ∀ p ∈ capture_ids.zip rms_data, ∀ q, p.2 = some q → 0 ≤ q) :
    (∃ row,
      (write_csv state rms_data capture_ids counter date_string time_string note).rows.getLast?
        = some row ∧ alookup c row.cells = some "0") ∧
    (∀ x ∈ merged_columns (read_csv_spec_columns state) capture_ids,
      (spec_value capture_ids rms_data x = -1 ↔ x ∉ capture_ids)) ∧
    (active_rms_values (read_csv_spec_columns state) capture_ids rms_data).length
      = capture_ids.length := by
  have hcC : c ∈ capture_ids := (List.of_mem_zip hnull).1
  have hmerge : (merge_spec_columns (read_csv_spec_columns state) capture_ids).1
      = merged_columns (read_csv_spec_columns state) capture_ids := merge_fst _ _ hC
  have hval0 : spec_value capture_ids rms_data c = 0 := by
    unfold spec_value
    rw [current_specs_mem capture_ids rms_data c none hC hlen hnull]
    rfl
  have hiff : ∀ x ∈ merged_columns (read_csv_spec_columns state) capture_ids,
      (spec_value capture_ids rms_data x = -1 ↔ x ∉ capture_ids) := by
    intro x _
    constructor
    · intro hx hxC
      obtain ⟨d, hd⟩ := exists_zip_pair capture_ids rms_data x hlen hxC
      have hxval : spec_value capture_ids rms_data x = rms_int_value d := by
        unfold spec_value
        rw [current_specs_mem capture_ids rms_data x d hC hlen hd]
        rfl
      have hge : 0 ≤ rms_int_value d :=
        rms_int_value_nonneg d (fun q hq => hnonneg (x, d) hd q hq)
      omega
    · intro hxC
      unfold spec_value
      rw [current_specs_not_mem capture_ids rms_data x hxC]
      rfl
  refine ⟨?_, hiff, ?_⟩
  · refine ⟨write_csv_new_row (read_csv_spec_columns state) rms_data capture_ids counter
      date_string time_string note,
      write_csv_getLast state rms_data capture_ids counter date_string time_string note, ?_⟩
    have hcells : (write_csv_new_row (read_csv_spec_columns state) rms_data capture_ids
        counter date_string time_string note).cells
        = (merge_spec_columns (read_csv_spec_columns state) capture_ids).1.map
            (fun x => (x, toString (spec_value capture_ids rms_data x))) := rfl
    rw [hcells,
      alookup_map_self (fun x => toString (spec_value capture_ids rms_data x)) c _
        (by rw [hmerge]; exact mem_merged_of_mem_current _ _ c hcC), hval0]
    rfl
  · have hmergedNodup : (merged_columns (read_csv_spec_columns state) capture_ids).Nodup := by
      unfold merged_columns
      rw [List.nodup_append]
      refine ⟨hE, hC.filter _, ?_⟩
      intro a haE haf
      have := (List.mem_filter.mp haf).2
      simp only [decide_eq_true_eq] at this
      exact this haE
    unfold active_rms_values
    rw [← List.countP_eq_length_filter, List.countP_map]
    have h2 : List.countP ((fun v => decide (v ≠ -1)) ∘ spec_value capture_ids rms_data)
        (merged_columns (read_csv_spec_columns state) capture_ids)
        = List.countP (fun x => decide (x ∈ capture_ids))
            (merged_columns (read_csv_spec_columns state) capture_ids) := by
      apply List.countP_congr
      intro x hx
      simp only [Function.comp_apply, decide_eq_true_eq]
      rw [← not_iff_not, not_not]
      exact hiff x hx
    rw [h2, List.countP_eq_length_filter]
    apply List.Perm.length_eq
    apply (List.perm_ext_iff_of_nodup (hmergedNodup.filter _) hC).mpr
    intro a
    simp only [List.mem_filter, decide_eq_true_eq]
    constructor
    · rintro ⟨-, h⟩
      exact h
    · intro haC
      exact ⟨mem_merged_of_mem_current _ _ a haC, haC⟩

/-- Witness for `c10_null_rms_recorded_as_zero`: a batch `a, b` where `b`'s
RMS is null writes `0` in the `b` column of the appended row. -/
theorem c10_null_rms_recorded_as_zero_witness :
    ∃ row,
      (write_csv none [some 10, none] ["a", "b"] 1 "2025-01-01" "06:00" "").rows.getLast?
        = some row ∧ alookup "b" row.cells = some "0" :=
  (c10_null_rms_recorded_as_zero none [some 10, none] ["a", "b"] 1 "2025-01-01" "06:00" ""
    "b" (by decide) (by decide) (by decide) (by decide)
    (by
      intro p hp q hq
      fin_cases hp <;> simp_all
      rw [← hq]
      norm_num)).1

/-! ## C7: crop error conditions and the uncropped fallback -/

/-- C7: `crop_waterfall_spectrum` fails exactly when the requested window lies
entirely outside the original spectrum, or is degenerate (`start ≥ end`), or
the clamped bin range is empty; and when cropping fails inside
`load_and_crop_data`, the original matrix is returned with no cropped view and
the run (its effective center/span included) unchanged. -/
theorem c7_crop_error_iff_and_fallback
    (data : List (List ℚ)) (center span cs ce : ℚ)
    (run : CaptureRunModel) (sp : CaptureSpecModel) (fr : FreqRangeSpec)
    (hsp : run.spec = some sp) (hfr : sp.freq_range = some fr) :
    ((∃ e, crop_waterfall_spectrum data center span cs ce = .error e) ↔
      ((ce < center - span / 2 ∨ cs > center + span / 2) ∨
       cs ≥ ce ∨
       min (((data.headD []).length : ℕ) : ℤ)
           (pyRound ((min ce (center + span / 2) - (center - span / 2))
             / (span / (((data.headD []).length : ℕ) : ℚ))))
         ≤ max 0 (pyRound ((max cs (center - span / 2) - (center - span / 2))
             / (span / (((data.headD []).length : ℕ) : ℚ)))))) ∧
    (∀ e, crop_waterfall_spectrum data ((run.freq : ℚ) / 1000) ((run.span : ℚ) / 1000)
        (fr.freq_start - fr.crop_margin_khz) (fr.freq_end + fr.crop_margin_khz)
        = .error e →
      load_and_crop_data run data = (data, none, run)) := by
  constructor
  · simp only [crop_waterfall_spectrum]
    split_ifs with h1 h2 h3
    · exact iff_of_true ⟨_, rfl⟩ (Or.inl h1)
    · exact iff_of_true ⟨_, rfl⟩ (Or.inr (Or.inl h2))
    · exact iff_of_true ⟨_, rfl⟩ (Or.inr (Or.inr h3))
    · refine iff_of_false ?_ ?_
      · rintro ⟨e, he⟩
        first
          | exact he
          | exact Except.noConfusion he
      · rintro (h | h | h)
        · exact h1 h
        · exact h2 h
        · exact h3 h
  · intro e he
    simp only [load_and_crop_data, hsp, hfr, he]

/-- Witness for `c7_crop_error_iff_and_fallback`: a freq_range entirely above
the recorded window makes cropping fail and processing falls back to the full
spectrum with the run unchanged. -/
theorem c7_crop_error_iff_and_fallback_witness :
    load_and_crop_data
        ⟨"x", 500, 1000, 500, 1000, 2000, none, some ⟨"s", some ⟨"r", 5, 7, 0⟩⟩⟩
        [[1, 2, 3]]
      = ([[1, 2, 3]], none,
         ⟨"x", 500, 1000, 500, 1000, 2000, none, some ⟨"s", some ⟨"r", 5, 7, 0⟩⟩⟩) :=
  (c7_crop_error_iff_and_fallback [[1, 2, 3]] 0 0 0 0
    ⟨"x", 500, 1000, 500, 1000, 2000, none, some ⟨"s", some ⟨"r", 5, 7, 0⟩⟩⟩
    ⟨"s", some ⟨"r", 5, 7, 0⟩⟩ ⟨"r", 5, 7, 0⟩ rfl rfl).2
    "Crop range is outside original spectrum" (by norm_num [crop_waterfall_spectrum])

/-! ## C4: effective frequency and span after cropping -/

theorem pyInt_sub_abs_lt_one (q : ℚ) : |((pyInt q : ℤ) : ℚ) - q| < 1 := by
  unfold pyInt
  split_ifs with h
  · have h1 := Int.floor_le q
    have h2 := Int.lt_floor_add_one q
    rw [abs_lt]
    constructor <;> push_cast <;> linarith
  · have h1 := Int.le_ceil q
    have h2 := Int.ceil_lt_add_one q
    rw [abs_lt]
    constructor <;> push_cast <;> linarith

/-- C4 counterexample: a successful crop of one bin (width 1/3 kHz) sets
`span_effective = 333` Hz, which is not equal to the cropped window's exact
width of 1000/3 Hz, so `span_effective` equals the width only after
truncation to whole Hz. -/
theorem c4_counterexample :
    crop_waterfall_spectrum [[0, 0, 0]] ((500 : ℚ) / 1000) ((1000 : ℚ) / 1000)
        ((0 : ℚ) - 0) ((1 / 3 : ℚ) + 0)
      = .ok ([[0]], 0, 1 / 3, 0, 1) ∧
    (load_and_crop_data
        ⟨"x", 500, 1000, 500, 1000, 2000, none, some ⟨"s", some ⟨"r", 0, 1 / 3, 0⟩⟩⟩
        [[0, 0, 0]]).2.2.span_effective = 333 ∧
    ((333 : ℚ) ≠ ((1 / 3 : ℚ) - 0) * 1000) := by
  refine ⟨by norm_num [crop_waterfall_spectrum, pyRound], ?_, by norm_num⟩
  norm_num [load_and_crop_data, crop_waterfall_spectrum, pyRound, pyInt]

/-- C4 (amended): when the run's `freq_range` is set and cropping succeeds,
`freq_effective` is the exact midpoint of the cropped window truncated to
whole Hz — hence within one bin of the midpoint whenever a bin spans at least
1 Hz — and `span_effective` is the cropped window's width truncated to whole
Hz; when `freq_range` is null (or the spec is absent), `load_and_crop_data`
leaves the run unchanged, and `CaptureRun.__init__` starts the effective
parameters equal to the requested ones. -/
theorem c4_effective_params
    (run : CaptureRunModel) (data : List (List ℚ)) (sp : CaptureSpecModel)
    (fr : FreqRangeSpec) (cropped : List (List ℚ)) (actual_start actual_end : ℚ)
    (sb eb : ℤ)
    (hsp : run.spec = some sp) (hfr : sp.freq_range = some fr)
    (hcrop : crop_waterfall_spectrum data ((run.freq : ℚ) / 1000) ((run.span : ℚ) / 1000)
        (fr.freq_start - fr.crop_margin_khz) (fr.freq_end + fr.crop_margin_khz)
      = .ok (cropped, actual_start, actual_end, sb, eb)) :
    ((load_and_crop_data run data).2.2.freq_effective
        = pyInt ((actual_start + actual_end) / 2 * 1000)) ∧
    ((load_and_crop_data run data).2.2.span_effective
        = pyInt ((actual_end - actual_start) * 1000)) ∧
    (1 ≤ (run.span : ℚ) / (((data.headD []).length : ℕ) : ℚ) →
      |(((load_and_crop_data run data).2.2.freq_effective : ℤ) : ℚ)
          - (actual_start + actual_end) / 2 * 1000|
        ≤ (run.span : ℚ) / (((data.headD []).length : ℕ) : ℚ)) ∧
    ((load_and_crop_data run data).2.1 = some cropped) ∧
    (∀ run' : CaptureRunModel,
      (run'.spec = none ∨ ∃ sp', run'.spec = some sp' ∧ sp'.freq_range = none) →
      load_and_crop_data run' data = (data, none, run')) ∧
    (∀ (id : String) (freq span rec_time : ℤ) (spec : Option CaptureSpecModel),
      (CaptureRunModel.init id freq span rec_time spec).freq_effective = freq ∧
      (CaptureRunModel.init id freq span rec_time spec).span_effective = span) := by
  have hload : load_and_crop_data run data =
      (data, some cropped,
       { run with
          freq_effective := pyInt ((actual_start + actual_end) / 2 * 1000)
          span_effective := pyInt ((actual_end - actual_start) * 1000) }) := by
    simp only [load_and_crop_data, hsp, hfr, hcrop]
  refine ⟨by rw [hload], by rw [hload], ?_, by rw [hload], ?_, ?_⟩
  · intro hbin
    rw [hload]
    exact le_trans (le_of_lt (pyInt_sub_abs_lt_one _)) hbin
  · intro run' h
    rcases h with h | ⟨sp', hsp', hfr'⟩
    · simp [load_and_crop_data, h]
    · simp [load_and_crop_data, hsp', hfr']
  · intro id freq span rec_time spec
    exact ⟨rfl, rfl⟩

/-- Witness for `c4_effective_params`: the concrete one-bin crop sets
`freq_effective` to the truncated midpoint. -/
theorem c4_effective_params_witness :
    (load_and_crop_data
        ⟨"x", 500, 1000, 500, 1000, 2000, none, some ⟨"s", some ⟨"r", 0, 1 / 3, 0⟩⟩⟩
        [[0, 0, 0]]).2.2.freq_effective = pyInt (((0 : ℚ) + 1 / 3) / 2 * 1000) :=
  (c4_effective_params
    ⟨"x", 500, 1000, 500, 1000, 2000, none, some ⟨"s", some ⟨"r", 0, 1 / 3, 0⟩⟩⟩
    [[0, 0, 0]] ⟨"s", some ⟨"r", 0, 1 / 3, 0⟩⟩ ⟨"r", 0, 1 / 3, 0⟩
    [[0]] 0 (1 / 3) 0 1 rfl rfl (by norm_num [crop_waterfall_spectrum, pyRound])).1

/-! ## C5 and C6: RMS normalization and the empty-mask early return -/

theorem columnMeans_length (data : List (List ℝ)) :
    (columnMeans data).length = (data.headD []).length := by
  simp [columnMeans]

theorem fract_eval (q r : ℚ) (n : ℤ) (h : q - (n : ℚ) = r) (h0 : 0 ≤ r) (h1 : r < 1) :
    Int.fract q = r :=
  Int.fract_eq_iff.mpr ⟨h0, h1, n, by rw [← h]; ring⟩

/-- C6: when the combined inclusion mask (global exclusions intersected with
the core `freq_range` window) leaves zero bins, `calculate_rms` returns the
triple `(null, mask, null)` and logs the no-bins warning. -/
theorem c6_empty_mask_returns_null (run : CaptureRunModel) (data : List (List ℝ))
    (min_db_val max_db_val : ℚ)
    (h : rms_included_count run ((data.headD []).length) = 0) :
    calculate_rms run data min_db_val max_db_val =
      { rms_normalized := none
        include_mask := rms_combined_mask run ((data.headD []).length)
        rms_truncated := none
        warned_no_bins := true } := by
  simp only [calculate_rms, columnMeans_length]
  rw [if_pos h]

/-- Witness for `c6_empty_mask_returns_null`: a run centered at 0 kHz with a
1 kHz span and one bin is fully swallowed by the 0 kHz exclusion window. -/
theorem c6_empty_mask_returns_null_witness :
    (calculate_rms ⟨"w", 0, 1000, 0, 1000, 2000, none, none⟩ [[0]] (-85) (-60)).rms_normalized
      = none ∧
    (calculate_rms ⟨"w", 0, 1000, 0, 1000, 2000, none, none⟩ [[0]] (-85) (-60)).rms_truncated
      = none ∧
    (calculate_rms ⟨"w", 0, 1000, 0, 1000, 2000, none, none⟩ [[0]] (-85) (-60)).warned_no_bins
      = true := by
  have hf1 : Int.fract (-(1 / 2) : ℚ) = 1 / 2 :=
    fract_eval _ _ (-1) (by norm_num) (by norm_num) (by norm_num)
  have hf2 : Int.fract ((3 / 2 : ℚ)) = 1 / 2 :=
    fract_eval _ _ 1 (by norm_num) (by norm_num) (by norm_num)
  have hf3 : Int.fract ((57599 / 2 : ℚ)) = 1 / 2 :=
    fract_eval _ _ 28799 (by norm_num) (by norm_num) (by norm_num)
  have hf4 : Int.fract ((57603 / 2 : ℚ)) = 1 / 2 :=
    fract_eval _ _ 28801 (by norm_num) (by norm_num) (by norm_num)
  have h := c6_empty_mask_returns_null ⟨"w", 0, 1000, 0, 1000, 2000, none, none⟩
    [[0]] (-85) (-60)
    (by norm_num [rms_included_count, rms_combined_mask, build_include_mask,
      build_core_rms_mask, exclude_freqs_khz, pyRound, mask_set_range, List.countP,
      List.countP.go, hf1, hf2, hf3, hf4])
  rw [h]
  exact ⟨rfl, rfl, rfl⟩

/-- C5: whenever any bin survives the mask, `calculate_rms` returns exactly
the lower-clamped normalized RMS (so the result is nonnegative and values
above 100 pass through unclamped), and a degenerate normalization range
`min_db = max_db` forces both the normalized and the truncated RMS to 0. -/
theorem c5_rms_normalization (run : CaptureRunModel) (data : List (List ℝ))
    (min_db_val max_db_val : ℚ)
    (h : rms_included_count run ((data.headD []).length) ≠ 0) :
    (calculate_rms run data min_db_val max_db_val).rms_normalized
        = some (max 0 (rms_raw_normalized run data min_db_val max_db_val)) ∧
    (∀ r : ℝ, (calculate_rms run data min_db_val max_db_val).rms_normalized = some r →
      0 ≤ r) ∧
    (100 < rms_raw_normalized run data min_db_val max_db_val →
      (calculate_rms run data min_db_val max_db_val).rms_normalized
        = some (rms_raw_normalized run data min_db_val max_db_val)) ∧
    (min_db_val = max_db_val →
      (calculate_rms run data min_db_val max_db_val).rms_normalized = some 0 ∧
      (calculate_rms run data min_db_val max_db_val).rms_truncated = some 0) := by
  have hval : (calculate_rms run data min_db_val max_db_val).rms_normalized
      = some (max 0 (rms_raw_normalized run data min_db_val max_db_val)) := by
    simp only [calculate_rms, columnMeans_length]
    rw [if_neg h]
  have htrunc : (calculate_rms run data min_db_val max_db_val).rms_truncated
      = some ((calculate_truncated_rms (columnMeans data) min_db_val max_db_val
          (some (rms_combined_mask run ((data.headD []).length))) 5).1) := by
    simp only [calculate_rms, columnMeans_length]
    rw [if_neg h]
  refine ⟨hval, ?_, ?_, ?_⟩
  · intro r hr
    rw [hval] at hr
    injection hr with hr'
    rw [← hr']
    exact le_max_left 0 _
  · intro h100
    rw [hval, max_eq_right (le_of_lt (lt_trans (by norm_num) h100))]
  · intro heq
    have hnotlt : ¬((min_db_val : ℝ) < (max_db_val : ℝ)) := by
      rw [heq]
      exact lt_irrefl _
    constructor
    · rw [hval]
      have hraw : rms_raw_normalized run data min_db_val max_db_val = 0 := by
        unfold rms_raw_normalized
        rw [if_neg hnotlt]
      rw [hraw, max_self]
    · rw [htrunc]
      have : (calculate_truncated_rms (columnMeans data) min_db_val max_db_val
          (some (rms_combined_mask run ((data.headD []).length))) 5).1 = 0 := by
        simp only [calculate_truncated_rms]
        rw [if_neg hnotlt, max_self]
      rw [this]

/-- Witness for `c5_rms_normalization`: a run far from the exclusion windows
keeps its single bin, and the degenerate range -85..-85 yields rms 0 and
truncated rms 0. -/
theorem c5_rms_normalization_witness :
    (calculate_rms ⟨"w", 5000000, 1000, 5000000, 1000, 2000, none, none⟩
        [[0]] (-85) (-85)).rms_normalized = some 0 ∧
    (calculate_rms ⟨"w", 5000000, 1000, 5000000, 1000, 2000, none, none⟩
        [[0]] (-85) (-85)).rms_truncated = some 0 :=
  (c5_rms_normalization ⟨"w", 5000000, 1000, 5000000, 1000, 2000, none, none⟩
    [[0]] (-85) (-85)
    (by
      have hf1 : Int.fract (-(10001 / 2) : ℚ) = 1 / 2 :=
        fract_eval _ _ (-5001) (by norm_num) (by norm_num) (by norm_num)
      have hf2 : Int.fract (-(9997 / 2) : ℚ) = 1 / 2 :=
        fract_eval _ _ (-4999) (by norm_num) (by norm_num) (by norm_num)
      have hf3 : Int.fract ((47599 / 2 : ℚ)) = 1 / 2 :=
        fract_eval _ _ 23799 (by norm_num) (by norm_num) (by norm_num)
      have hf4 : Int.fract ((47603 / 2 : ℚ)) = 1 / 2 :=
        fract_eval _ _ 23801 (by norm_num) (by norm_num) (by norm_num)
      norm_num [rms_included_count, rms_combined_mask, build_include_mask,
        build_core_rms_mask, exclude_freqs_khz, pyRound, mask_set_range, List.countP,
        List.countP.go, hf1, hf2, hf3, hf4])).2.2.2 rfl
